import Mathlib

/-!
Verification of the AIOS Pro license / feature-gating CLI
(src/.aios-core/cli/commands/pro/index.js and the FeatureGate class
embedded in the ADR section of that file).

Times are modelled as `Int` epoch milliseconds.  Feature sets are
modelled as `List String` (JS `Set` is only used for membership here).
JS string primitives used by the source (`startsWith`, `endsWith`,
`slice(0,-1)`) are given kernel-computable character-list models.
-/

/-- Milliseconds per day, matching `24 * 60 * 60 * 1000` in the source. -/
def msPerDay : Int := 86400000

/-- JS truthy-or-default on an optional count: models `x || d` where `x`
is a number that may be missing or `0` (both falsy in JS). -/
def jsOrNat (o : Option Nat) (d : Nat) : Nat :=
  match o with
  | some n => if n == 0 then d else n
  | none => d

/-- Boolean list-prefix test on character lists (model of JS
`String.prototype.startsWith` for the ASCII feature-id strings used here). -/
def listPre : List Char → List Char → Bool
  | [], _ => true
  | _ :: _, [] => false
  | a :: as, b :: bs => a == b && listPre as bs

/-- Model of JS `s.startsWith(p)`. -/
def strStartsWith (s p : String) : Bool :=
  listPre p.toList s.toList

/-- Model of JS `s.endsWith(p)`. -/
def strEndsWith (s p : String) : Bool :=
  listPre p.toList.reverse s.toList.reverse

/-- Model of JS `s.slice(0, -1)`: the string without its final character. -/
def strDropLast (s : String) : String :=
  String.mk s.toList.dropLast

/-- The cached license record shape, as written by `activateAction`
(`cacheData`, src lines 157-165) and refreshed by `validateAction`
(`updatedCache`, src lines 448-456). `lastValidated` is optional: absent
on first activation. -/
structure LicenseRecord where
  key : String
  activatedAt : Int
  expiresAt : Int
  features : List String
  seatsUsed : Nat
  seatsMax : Nat
  cacheValidDays : Option Nat
  gracePeriodDays : Option Nat
  lastValidated : Option Int
deriving DecidableEq

/-- Modelled from the spec: `isExpired(record, now)` from license-cache.js,
which is not under src. Spec 4.3: true when
`now > activatedAt + cacheValidDays` (or `lastValidated + cacheValidDays`
if present, since revalidation resets the clock); missing
`cacheValidDays` defaults to 30. -/
def isExpired (r : LicenseRecord) (now : Int) : Bool :=
  decide (now > r.lastValidated.getD r.activatedAt +
    ((r.cacheValidDays.getD 30 : Nat) : Int) * msPerDay)

/-- Modelled from the spec: `isInGracePeriod(record, now)` from
license-cache.js, which is not under src. Spec 4.3: true when expired
per `isExpired` AND `now ≤ expiry + gracePeriodDays`; missing
`gracePeriodDays` defaults to 7. -/
def isInGracePeriod (r : LicenseRecord) (now : Int) : Bool :=
  isExpired r now &&
    decide (now ≤ r.lastValidated.getD r.activatedAt +
      (((r.cacheValidDays.getD 30 : Nat) : Int) +
        ((r.gracePeriodDays.getD 7 : Nat) : Int)) * msPerDay)

/-- The four license states of the FeatureGate state machine (spec 4.5). -/
inductive LicenseState where
  | NotActivated
  | Active
  | Grace
  | Expired
deriving DecidableEq

/-- Modelled from the spec: the state transition function of spec 4.5
(`featureGate.getLicenseState` is called by `statusAction` but its body is
not under src): no cache => NotActivated; not expired => Active; expired
but within grace => Grace; otherwise Expired. -/
def getLicenseState (cache : Option LicenseRecord) (now : Int) : LicenseState :=
  match cache with
  | none => LicenseState.NotActivated
  | some r =>
    if isExpired r now = false then LicenseState.Active
    else if isInGracePeriod r now then LicenseState.Grace
    else LicenseState.Expired

/-- The in-memory feature set computed by `FeatureGate._loadCache`
(src lines 1047-1061): features are taken from the cache when it is
present and not expired, or present and within the grace period;
otherwise the set is empty. -/
def loadCacheFeatures (cache : Option LicenseRecord) (now : Int) : List String :=
  match cache with
  | some r =>
    if isExpired r now = false then r.features
    else if isInGracePeriod r now then r.features
    else []
  | none => []

/-- `FeatureGate._matchWildcard` (src lines 1063-1072): a loaded grant `f`
matches `featureId` when `f` ends with the wildcard suffix `".*"` and
`featureId` starts with `f.slice(0, -1)` (the grant minus the `'*'`,
keeping the trailing `'.'`). -/
def matchWildcard (features : List String) (featureId : String) : Bool :=
  features.any fun f =>
    strEndsWith f ".*" && strStartsWith featureId (strDropLast f)

/-- `FeatureGate.isAvailable` (src lines 1025-1028) after `_loadCache`:
exact membership in the loaded feature set, or a wildcard match. -/
def isAvailable (cache : Option LicenseRecord) (now : Int) (featureId : String) : Bool :=
  let fs := loadCacheFeatures cache now
  fs.contains featureId || matchWildcard fs featureId

/-- Modelled from the spec: `validateKeyFormat(key)` from
license-crypto.js, which is not under src. Spec 3 / 4.2: the key is the
fixed prefix `PRO` followed by four groups of four alphanumeric
characters, dash-separated; any deviation returns false. `splitDash`
below is the dash-splitting helper. -/
def splitDash : List Char → List (List Char)
  | [] => [[]]
  | c :: rest =>
    let r := splitDash rest
    if c == '-' then [] :: r
    else
      match r with
      | g :: gs => (c :: g) :: gs
      | [] => [[c]]

/-- A group of exactly four alphanumeric characters. -/
def isAlphanumGroup (g : List Char) : Bool :=
  g.length == 4 && g.all Char.isAlphanum

/-- Modelled from the spec: strict `PRO-XXXX-XXXX-XXXX-XXXX` format check. -/
def validateKeyFormat (key : String) : Bool :=
  match splitDash key.toList with
  | [p, a, b, c, d] =>
    p == ['P', 'R', 'O'] && isAlphanumGroup a && isAlphanumGroup b &&
      isAlphanumGroup c && isAlphanumGroup d
  | _ => false

/-- The success payload of `licenseApi.activate` used by `activateAction`
(src lines 154-165). -/
structure ActivateResult where
  key : String
  activatedAt : Int
  expiresAt : Int
  features : List String
  seatsUsed : Nat
  seatsMax : Nat
  cacheValidDays : Option Nat
  gracePeriodDays : Option Nat
deriving DecidableEq

/-- The payload of `licenseApi.validate` used by `validateAction`
(src lines 438-456). `valid := false` is a normal, non-throwing result. -/
structure ValidateResult where
  valid : Bool
  features : List String
  seatsUsed : Nat
  seatsMax : Nat
  expiresAt : Int
  cacheValidDays : Option Nat
  gracePeriodDays : Option Nat
deriving DecidableEq

/-- The `cacheData` record written by `activateAction` on success
(src lines 157-165): exactly the listed fields, no `lastValidated`. -/
def activateCacheData (r : ActivateResult) : LicenseRecord :=
  { key := r.key
    activatedAt := r.activatedAt
    expiresAt := r.expiresAt
    features := r.features
    seatsUsed := r.seatsUsed
    seatsMax := r.seatsMax
    cacheValidDays := r.cacheValidDays
    gracePeriodDays := r.gracePeriodDays
    lastValidated := none }

/-- The `updatedCache` record written by `validateAction` on a
`valid: true` response (src lines 448-456): spread of the old cache with
refreshed fields and `lastValidated := new Date().toISOString()`
(the current time). -/
def validateUpdatedCache (c : LicenseRecord) (r : ValidateResult) (now : Int) : LicenseRecord :=
  { c with
    features := r.features
    seatsUsed := r.seatsUsed
    seatsMax := r.seatsMax
    expiresAt := r.expiresAt
    cacheValidDays := r.cacheValidDays
    gracePeriodDays := r.gracePeriodDays
    lastValidated := some now }

/-- Observable effects performed by the CLI actions, in program order. -/
inductive Effect where
  | apiActivate (key : String)
  | apiValidate (key : String)
  | apiDeactivate (key : String)
  | apiIsOnline
  | writeCache (r : LicenseRecord)
  | deleteCache
  | setPending (key : String)
  | clearPending
  | reload
  | exitProcess
deriving DecidableEq

/-- The persistent local store: the license cache file and the
pending-deactivation record. Modelled from the spec: the pending slot
(license-cache.js `setPendingDeactivation` / `hasPendingDeactivation` /
`clearPendingDeactivation`, not under src) holds at most one pending key. -/
structure Store where
  cache : Option LicenseRecord
  pending : Option String
deriving DecidableEq

/-- How each effect acts on the persistent store; API calls, reload and
process exit do not change the store. -/
def applyEffect (s : Store) : Effect → Store
  | Effect.writeCache r => { s with cache := some r }
  | Effect.deleteCache => { s with cache := none }
  | Effect.setPending k => { s with pending := some k }
  | Effect.clearPending => { s with pending := none }
  | Effect.apiActivate _ => s
  | Effect.apiValidate _ => s
  | Effect.apiDeactivate _ => s
  | Effect.apiIsOnline => s
  | Effect.reload => s
  | Effect.exitProcess => s

/-- Run a trace of effects against the store, left to right. -/
def runEffects (s : Store) (es : List Effect) : Store :=
  es.foldl applyEffect s

/-- Modelled from the spec: `hasPendingDeactivation().pending` — whether a
pending-deactivation record is present. -/
def hasPendingDeactivation (s : Store) : Bool :=
  s.pending.isSome

/-- Environment of a single CLI action run: what the license API would
answer. `validateResult none` / `activateResult none` model a thrown
error from the API call. -/
structure ApiEnv where
  isOnline : Bool
  deactivateOk : Bool
  validateResult : Option ValidateResult
  activateResult : Option ActivateResult
deriving DecidableEq

/-- Effect trace of `activateAction` (src lines 120-197): a missing key or
a key failing `validateKeyFormat` exits before any API call; otherwise the
activate call runs, a thrown `LicenseActivationError` exits, and on success
the cache is written (warning only on write failure) and the gate reloaded. -/
def activateAction (key : Option String) (env : ApiEnv) : List Effect :=
  match key with
  | none => [Effect.exitProcess]
  | some k =>
    if validateKeyFormat k then
      match env.activateResult with
      | none => [Effect.apiActivate k, Effect.exitProcess]
      | some r => [Effect.apiActivate k, Effect.writeCache (activateCacheData r), Effect.reload]
    else [Effect.exitProcess]

/-- Effect trace of `validateAction` (src lines 412-483): no cache returns
early; a thrown API error exits; a `valid: false` response returns
normally with no further effect; a `valid: true` response writes the
refreshed cache and reloads the gate. -/
def validateAction (cache : Option LicenseRecord) (env : ApiEnv) (now : Int) : List Effect :=
  match cache with
  | none => []
  | some c =>
    match env.validateResult with
    | none => [Effect.apiValidate c.key, Effect.exitProcess]
    | some r =>
      if r.valid then
        [Effect.apiValidate c.key, Effect.writeCache (validateUpdatedCache c r now),
          Effect.reload]
      else
        [Effect.apiValidate c.key]

/-- Effect trace of `deactivateAction` (src lines 286-368): no cache
returns early; an unconfirmed prompt cancels; otherwise the connectivity
probe runs, then either an online deactivate (falling back to
`setPendingDeactivation` if it throws) or an offline
`setPendingDeactivation`; in all three branches the cache is then deleted
and the gate reloaded. `confirmed` is `options.force || user said yes`. -/
def deactivateAction (cache : Option LicenseRecord) (confirmed : Bool) (env : ApiEnv) :
    List Effect :=
  match cache with
  | none => []
  | some c =>
    if confirmed then
      if env.isOnline then
        if env.deactivateOk then
          [Effect.apiIsOnline, Effect.apiDeactivate c.key, Effect.deleteCache, Effect.reload]
        else
          [Effect.apiIsOnline, Effect.apiDeactivate c.key, Effect.setPending c.key,
            Effect.deleteCache, Effect.reload]
      else
        [Effect.apiIsOnline, Effect.setPending c.key, Effect.deleteCache, Effect.reload]
    else []

/-- Does an effect mutate the on-disk license cache? -/
def mutatesCache : Effect → Bool
  | Effect.writeCache _ => true
  | Effect.deleteCache => true
  | _ => false

/-- Integer ceiling division for positive divisor, modelling
`Math.ceil(a / b)` on exact integer inputs. -/
def intCeilDiv (a b : Int) : Int :=
  -(Int.ediv (-a) b)

/-- The cache expiry date displayed by `statusAction` (src lines 249-252):
`new Date(activatedAt).getTime() + (cacheValidDays || 30) * 24*60*60*1000`.
Note it is computed from `activatedAt` only. -/
def statusExpiryDate (r : LicenseRecord) : Int :=
  r.activatedAt + ((jsOrNat r.cacheValidDays 30 : Nat) : Int) * msPerDay

/-- The days-remaining figure displayed by `statusAction` (src line 253):
`Math.ceil((expiryDate - Date.now()) / (24*60*60*1000))`. -/
def statusDaysRemaining (r : LicenseRecord) (now : Int) : Int :=
  intCeilDiv (statusExpiryDate r - now) msPerDay

/-- A fresh, unexpired record with the given feature grants, activated at
time 0 with the default 30/7 windows; used for concrete instantiations. -/
def freshRecord (fs : List String) : LicenseRecord :=
  { key := "PRO-AAAA-BBBB-CCCC-DDDD"
    activatedAt := 0
    expiresAt := 2592000000
    features := fs
    seatsUsed := 1
    seatsMax := 5
    cacheValidDays := some 30
    gracePeriodDays := some 7
    lastValidated := none }

def recC3 : LicenseRecord :=
  { key := "PRO-AAAA-BBBB-CCCC-DDDD"
    activatedAt := 0
    expiresAt := 8640000000
    features := ["pro.memory.analytics"]
    seatsUsed := 1
    seatsMax := 5
    cacheValidDays := some 30
    gracePeriodDays := some 7
    lastValidated := some (20 * msPerDay) }

def vres0 : ValidateResult :=
  { valid := true
    features := ["pro.memory.analytics"]
    seatsUsed := 1
    seatsMax := 5
    expiresAt := 8640000000
    cacheValidDays := some 30
    gracePeriodDays := some 7 }

def envOffline : ApiEnv :=
  { isOnline := false, deactivateOk := false, validateResult := none, activateResult := none }

def envOnlineOk : ApiEnv :=
  { isOnline := true, deactivateOk := true, validateResult := none, activateResult := none }

def envInvalid : ApiEnv :=
  { isOnline := true, deactivateOk := true, validateResult := some { vres0 with valid := false }
    activateResult := none }

def envValidOk : ApiEnv :=
  { isOnline := true, deactivateOk := true, validateResult := some vres0, activateResult := none }

/-- C1: whenever the computed license state is NotActivated or Expired,
`isAvailable` is false for every feature ID; and a non-empty in-memory
feature set is only loaded when the cache is present and either not
expired or within the grace period. -/
theorem C1_gating_denial (cache : Option LicenseRecord) (now : Int) (fid : String) :
    ((getLicenseState cache now = LicenseState.NotActivated ∨
        getLicenseState cache now = LicenseState.Expired) →
      isAvailable cache now fid = false) ∧
    (loadCacheFeatures cache now ≠ [] →
      ∃ r, cache = some r ∧ (isExpired r now = false ∨ isInGracePeriod r now = true)) := by
  constructor
  · intro h
    cases cache with
    | none => simp [isAvailable, loadCacheFeatures, matchWildcard]
    | some r =>
      cases he : isExpired r now with
      | false => simp [getLicenseState, he] at h
      | true =>
        cases hg : isInGracePeriod r now with
        | true => simp [getLicenseState, he, hg] at h
        | false => simp [isAvailable, loadCacheFeatures, he, hg, matchWildcard]
  · intro h
    cases cache with
    | none => simp [loadCacheFeatures] at h
    | some r =>
      refine ⟨r, rfl, ?_⟩
      cases he : isExpired r now with
      | false => exact Or.inl rfl
      | true =>
        cases hg : isInGracePeriod r now with
        | true => exact Or.inr rfl
        | false => exact absurd (by simp [loadCacheFeatures, he, hg]) h

theorem C1_gating_denial_witness :
    isAvailable none 0 "pro.squads.premium" = false ∧
    (∃ r, (some (freshRecord ["pro.memory.analytics"]) : Option LicenseRecord) = some r ∧
      (isExpired r 0 = false ∨ isInGracePeriod r 0 = true)) :=
  ⟨(C1_gating_denial none 0 "pro.squads.premium").1 (Or.inl rfl),
   (C1_gating_denial (some (freshRecord ["pro.memory.analytics"])) 0 "x").2 (by decide)⟩

/-- C2: a grant ending in the wildcard suffix matches exactly the feature
IDs starting with the grant minus its final character (a prefix keeping
the trailing separator); a grant without the suffix matches only the
identical string; and concretely, the grant "pro.squads.*" matches
"pro.squads.premium" but not "pro.squadcraft". -/
theorem C2_wildcard_matching :
    (∀ (g fid : String),
      matchWildcard [g] fid = (strEndsWith g ".*" && strStartsWith fid (strDropLast g))) ∧
    (∀ (g fid : String), strEndsWith g ".*" = false →
      isAvailable (some (freshRecord [g])) 0 fid = decide (fid = g)) ∧
    isAvailable (some (freshRecord ["pro.squads.*"])) 0 "pro.squads.premium" = true ∧
    isAvailable (some (freshRecord ["pro.squads.*"])) 0 "pro.squadcraft" = false := by
  refine ⟨?_, ?_, by decide, by decide⟩
  · intro g fid
    simp [matchWildcard]
  · intro g fid hg
    have hfeat : loadCacheFeatures (some (freshRecord [g])) 0 = [g] := rfl
    simp [isAvailable, hfeat, matchWildcard, hg, List.contains]

theorem C2_wildcard_matching_witness :
    matchWildcard ["pro.squads.*"] "pro.squads.premium" =
      (strEndsWith "pro.squads.*" ".*" &&
        strStartsWith "pro.squads.premium" (strDropLast "pro.squads.*")) ∧
    isAvailable (some (freshRecord ["pro.squads.premium"])) 0 "pro.squads.premium" =
      decide ("pro.squads.premium" = "pro.squads.premium") :=
  ⟨C2_wildcard_matching.1 "pro.squads.*" "pro.squads.premium",
   C2_wildcard_matching.2.1 "pro.squads.premium" "pro.squads.premium" (by decide)⟩

/-- C3: on a record whose lastValidated is later than activatedAt, the
status display computes expiry and days-remaining from activatedAt alone
(showing the cache as expired with -5 days) even though the cache-validity
boundary respecting lastValidated has not passed (isExpired is false and
the state is Active): the status operation ignores lastValidated. -/
theorem C3_status_ignores_lastValidated :
    statusDaysRemaining recC3 (35 * msPerDay) = -5 ∧
    isExpired recC3 (35 * msPerDay) = false ∧
    getLicenseState (some recC3) (35 * msPerDay) = LicenseState.Active ∧
    statusExpiryDate recC3 ≠
      recC3.lastValidated.getD recC3.activatedAt +
        ((recC3.cacheValidDays.getD 30 : Nat) : Int) * msPerDay := by
  exact ⟨by decide, by decide, by decide, by decide⟩

/-- C4: the record written by activation has no lastValidated; every
successful validation writes lastValidated equal to the current time; and
across two successive successful validations under a non-decreasing clock
the stored lastValidated values are non-decreasing. -/
theorem C4_lastValidated_monotone :
    (∀ r : ActivateResult, (activateCacheData r).lastValidated = none) ∧
    (∀ (c : LicenseRecord) (r : ValidateResult) (now : Int),
      (validateUpdatedCache c r now).lastValidated = some now) ∧
    (∀ (c : LicenseRecord) (r1 r2 : ValidateResult) (t1 t2 : Int), t1 ≤ t2 →
      ∀ a b, (validateUpdatedCache c r1 t1).lastValidated = some a →
        (validateUpdatedCache (validateUpdatedCache c r1 t1) r2 t2).lastValidated = some b →
        a ≤ b) := by
  refine ⟨fun r => rfl, fun c r now => rfl, ?_⟩
  intro c r1 r2 t1 t2 h a b ha hb
  simp [validateUpdatedCache] at ha hb
  omega

theorem C4_lastValidated_monotone_witness :
    (validateUpdatedCache (freshRecord []) vres0 1).lastValidated = some 1 ∧ (1 : Int) ≤ 2 :=
  ⟨C4_lastValidated_monotone.2.1 (freshRecord []) vres0 1,
   C4_lastValidated_monotone.2.2 (freshRecord []) vres0 vres0 1 2 (by decide) 1 2 rfl rfl⟩

/-- C5: a valid:false validation response completes normally: the trace is
exactly one validate call (no retry, no exit) and the store — cache and
pending record alike — is unchanged. -/
theorem C5_validate_invalid_noop (c : LicenseRecord) (env : ApiEnv) (now : Int)
    (r : ValidateResult) (hres : env.validateResult = some r) (hvalid : r.valid = false) :
    validateAction (some c) env now = [Effect.apiValidate c.key] ∧
    (∀ s : Store, runEffects s (validateAction (some c) env now) = s) := by
  have h : validateAction (some c) env now = [Effect.apiValidate c.key] := by
    simp [validateAction, hres, hvalid]
  exact ⟨h, fun s => by simp [h, runEffects, applyEffect]⟩

theorem C5_validate_invalid_noop_witness :
    validateAction (some (freshRecord ["x"])) envInvalid 0 =
      [Effect.apiValidate (freshRecord ["x"]).key] ∧
    runEffects ⟨some (freshRecord ["x"]), none⟩
      (validateAction (some (freshRecord ["x"])) envInvalid 0) =
      ⟨some (freshRecord ["x"]), none⟩ :=
  ⟨(C5_validate_invalid_noop (freshRecord ["x"]) envInvalid 0
      { vres0 with valid := false } rfl rfl).1,
   (C5_validate_invalid_noop (freshRecord ["x"]) envInvalid 0
      { vres0 with valid := false } rfl rfl).2 ⟨some (freshRecord ["x"]), none⟩⟩

/-- C6: a confirmed deactivation with a cached license: when offline or
when the online deactivate call fails, the pending record is set to the
cached key and the cache is deleted; when the online call succeeds, the
cache is deleted and the pending record is untouched. -/
theorem C6_deactivate_fallback (c : LicenseRecord) (env : ApiEnv) (s : Store) :
    ((env.isOnline = false ∨ env.deactivateOk = false) →
      (runEffects s (deactivateAction (some c) true env)).cache = none ∧
      hasPendingDeactivation (runEffects s (deactivateAction (some c) true env)) = true ∧
      (runEffects s (deactivateAction (some c) true env)).pending = some c.key) ∧
    (env.isOnline = true → env.deactivateOk = true →
      (runEffects s (deactivateAction (some c) true env)).cache = none ∧
      (runEffects s (deactivateAction (some c) true env)).pending = s.pending) := by
  constructor
  · intro h
    cases honline : env.isOnline with
    | false =>
      simp [deactivateAction, honline, runEffects, applyEffect, hasPendingDeactivation]
    | true =>
      have hd : env.deactivateOk = false := by
        rcases h with h | h
        · rw [honline] at h; exact absurd h (by decide)
        · exact h
      simp [deactivateAction, honline, hd, runEffects, applyEffect, hasPendingDeactivation]
  · intro h1 h2
    simp [deactivateAction, h1, h2, runEffects, applyEffect]

theorem C6_deactivate_fallback_witness :
    ((runEffects ⟨some (freshRecord ["x"]), none⟩
        (deactivateAction (some (freshRecord ["x"])) true envOffline)).cache = none ∧
      hasPendingDeactivation (runEffects ⟨some (freshRecord ["x"]), none⟩
        (deactivateAction (some (freshRecord ["x"])) true envOffline)) = true ∧
      (runEffects ⟨some (freshRecord ["x"]), none⟩
        (deactivateAction (some (freshRecord ["x"])) true envOffline)).pending =
        some (freshRecord ["x"]).key) ∧
    ((runEffects ⟨some (freshRecord ["x"]), none⟩
        (deactivateAction (some (freshRecord ["x"])) true envOnlineOk)).cache = none ∧
      (runEffects ⟨some (freshRecord ["x"]), none⟩
        (deactivateAction (some (freshRecord ["x"])) true envOnlineOk)).pending =
        (⟨some (freshRecord ["x"]), none⟩ : Store).pending) :=
  ⟨(C6_deactivate_fallback (freshRecord ["x"]) envOffline
      ⟨some (freshRecord ["x"]), none⟩).1 (Or.inl rfl),
   (C6_deactivate_fallback (freshRecord ["x"]) envOnlineOk
      ⟨some (freshRecord ["x"]), none⟩).2 rfl rfl⟩

/-- C7: the validate operation never clears the pending-deactivation
record: no trace of validateAction contains the clearPending effect, and
the pending slot of the store is unchanged by every run of validateAction
(the source imports clearPendingDeactivation but never calls it). -/
theorem C7_validate_never_clears_pending (cache : Option LicenseRecord) (env : ApiEnv)
    (now : Int) (s : Store) :
    Effect.clearPending ∉ validateAction cache env now ∧
    (runEffects s (validateAction cache env now)).pending = s.pending := by
  cases cache with
  | none => simp [validateAction, runEffects]
  | some c =>
    cases hres : env.validateResult with
    | none => simp [validateAction, hres, runEffects, applyEffect]
    | some r =>
      cases hv : r.valid with
      | true => simp [validateAction, hres, hv, runEffects, applyEffect]
      | false => simp [validateAction, hres, hv, runEffects, applyEffect]

/-- C8: when the key fails the format check, activation exits immediately:
the trace is exactly the process exit — no API call, no cache write — and
the store is unchanged. -/
theorem C8_activate_format_gate (k : String) (env : ApiEnv) (s : Store)
    (h : validateKeyFormat k = false) :
    activateAction (some k) env = [Effect.exitProcess] ∧
    runEffects s (activateAction (some k) env) = s := by
  have he : activateAction (some k) env = [Effect.exitProcess] := by
    simp [activateAction, h]
  exact ⟨he, by simp [he, runEffects, applyEffect]⟩

theorem C8_activate_format_gate_witness :
    activateAction (some "PRO-AB12-CD34-EF56") envOffline = [Effect.exitProcess] ∧
    runEffects ⟨none, none⟩ (activateAction (some "PRO-AB12-CD34-EF56") envOffline) =
      ⟨none, none⟩ :=
  C8_activate_format_gate "PRO-AB12-CD34-EF56" envOffline ⟨none, none⟩ (by decide)

/-- C9: in every run of activate, validate and deactivate, if the trace
contains a cache mutation (write or delete) then the trace ends with the
featureGate reload effect. -/
theorem C9_mutations_reload (key : Option String) (cache : Option LicenseRecord)
    (confirmed : Bool) (env : ApiEnv) (now : Int) :
    ((activateAction key env).any mutatesCache = true →
      (activateAction key env).getLast? = some Effect.reload) ∧
    ((validateAction cache env now).any mutatesCache = true →
      (validateAction cache env now).getLast? = some Effect.reload) ∧
    ((deactivateAction cache confirmed env).any mutatesCache = true →
      (deactivateAction cache confirmed env).getLast? = some Effect.reload) := by
  refine ⟨?_, ?_, ?_⟩
  · cases key with
    | none => intro h; simp [activateAction, mutatesCache] at h
    | some k =>
      cases hk : validateKeyFormat k with
      | false => intro h; simp [activateAction, hk, mutatesCache] at h
      | true =>
        cases hr : env.activateResult with
        | none => intro h; simp [activateAction, hk, hr, mutatesCache] at h
        | some r => intro h; simp [activateAction, hk, hr, List.getLast?]
  · cases cache with
    | none => intro h; simp [validateAction, mutatesCache] at h
    | some c =>
      cases hres : env.validateResult with
      | none => intro h; simp [validateAction, hres, mutatesCache] at h
      | some r =>
        cases hv : r.valid with
        | true => intro h; simp [validateAction, hres, hv, List.getLast?]
        | false => intro h; simp [validateAction, hres, hv, mutatesCache] at h
  · cases cache with
    | none => intro h; simp [deactivateAction, mutatesCache] at h
    | some c =>
      cases hc : confirmed with
      | false => intro h; simp [deactivateAction, mutatesCache] at h
      | true =>
        cases honline : env.isOnline with
        | false => intro h; simp [deactivateAction, honline, List.getLast?]
        | true =>
          cases hd : env.deactivateOk with
          | false => intro h; simp [deactivateAction, honline, hd, List.getLast?]
          | true => intro h; simp [deactivateAction, honline, hd, List.getLast?]

theorem C9_mutations_reload_witness :
    (validateAction (some (freshRecord ["x"])) envValidOk 0).getLast? = some Effect.reload :=
  (C9_mutations_reload none (some (freshRecord ["x"])) true envValidOk 0).2.1 (by decide)

/-- C10: deactivation with no cached license is a complete no-op: the
effect trace is empty (no probe, no API call, no pending write, no
deletion, no reload) and the store is unchanged. -/
theorem C10_deactivate_no_cache_noop (confirmed : Bool) (env : ApiEnv) (s : Store) :
    deactivateAction none confirmed env = [] ∧
    runEffects s (deactivateAction none confirmed env) = s :=
  ⟨rfl, rfl⟩
